import Mathlib

/-!
Verification development for the fbads-scraper work-coordination engine.

The definitions below are a shallow embedding of the coordination and
lifecycle logic of the scraper scripts (`scraper_nulls.mjs`, `scraper.mjs`
and their variants): the row shape of the `swipe_file_offers` table, the
atomic claim helper `tryClaimOffer`, the per-item lifecycle transition
performed by `processOffers`, the Fisher-Yates shuffle plus contiguous
chunking used to partition the backlog across workers, the
block-detection/confirmation protocol, and the `parseCountFromText`
text-to-count parser.  Timestamps are embedded as `Nat` (milliseconds),
JS numbers holding integer counts as `Nat`, and nullable columns as
`Option`.
-/

/-- One row of the `swipe_file_offers` table, restricted to the columns the
coordination logic reads or writes.  `statusUpdated`/`activeAds`/`attempts`/
`deletedAt` are the lifecycle columns of the `scraper_nulls.mjs` variants;
`scrapeStatus`/`claimedAt`/`claimedBy`/`claimExpires` are the claim columns
of the sharding+claim variant of `scraper.mjs`.  The `attempts` column is
always read through `offer.attempts ?? 0` in the source, so it is embedded
directly as `Nat`. -/
structure OfferRow where
  id : Nat
  adLibraryUrl : Option String
  activeAds : Option Nat
  updatedAt : Option Nat
  statusUpdated : Option String
  attempts : Nat
  deletedAt : Option Nat
  scrapeStatus : Option String
  claimedAt : Option Nat
  claimedBy : Option String
  claimExpires : Option Nat
  deriving DecidableEq, Repr

/-- The hard-coded lease TTL of `tryClaimOffer`: `Date.now() + 10 * 60 * 1000`. -/
def claimTtlMs : Nat := 10 * 60 * 1000

/-- The conditional update of `tryClaimOffer`, as executed atomically by the
datastore: `UPDATE ... SET scrape_status='in_progress', claimed_at=now,
claimed_by=workerId, claim_expires=now+TTL WHERE (scrape_status IS NULL OR
scrape_status='pending') AND id=offerId`.  Returns whether a row was
affected together with the resulting row.  Note the predicate consults only
`scrape_status`; `claim_expires` is not part of the `WHERE` clause. -/
def tryClaimUpdate (row : OfferRow) (workerId : String) (now : Nat) :
    Bool × OfferRow :=
  if row.scrapeStatus = none ∨ row.scrapeStatus = some "pending" then
    (true,
      { row with
        scrapeStatus := some "in_progress"
        claimedAt := some now
        claimedBy := some workerId
        claimExpires := some (now + claimTtlMs) })
  else
    (false, row)

/-- One serialized claim attempt folded over the accumulated
(granted-count, row) pair. -/
def claimStep (acc : Nat × OfferRow) (a : String × Nat) : Nat × OfferRow :=
  let r := tryClaimUpdate acc.2 a.1 a.2
  (acc.1 + (if r.1 then 1 else 0), r.2)

/-- A serialized history of claim attempts against one row: each attempt is
applied atomically in turn (the datastore serializes single-row conditional
updates), and the number of attempts that returned `true` is accumulated. -/
def runClaims (row : OfferRow) (attempts : List (String × Nat)) :
    Nat × OfferRow :=
  attempts.foldl claimStep (0, row)

/-- The response the supabase client hands back to `tryClaimOffer`: either
the promise rejected (`thrown`), or it resolved with a `data`/`error` pair
(`data` is `null` or the list of affected row ids). -/
inductive ClaimDbResponse where
  | thrown (msg : String)
  | resolved (data : Option (List Nat)) (error : Option String)
  deriving DecidableEq, Repr

/-- The boolean `tryClaimOffer` returns given the datastore response:
`catch` maps a rejection to `false`, an `error` field maps to `false`, and
otherwise the result is `Array.isArray(data) && data.length > 0`. -/
def tryClaimOffer (res : ClaimDbResponse) : Bool :=
  match res with
  | .thrown _ => false
  | .resolved _ (some _) => false
  | .resolved none none => false
  | .resolved (some rows) none => decide (0 < rows.length)

/-- The final per-item outcome handed to the lifecycle update code of
`processOffers`: terminal success with an extracted count, a terminal
failure (with or without a confirmed block), or an unexpected exception
caught at the item boundary. -/
inductive Outcome where
  | success (count : Nat)
  | failure (confirmedBlocked : Bool)
  | exception
  deriving DecidableEq, Repr

/-- The persisted-state transition `processOffers` performs for one final
outcome (scraper_nulls variants):
* `found=true` → `{activeAds, updated_at, status_updated:"success", attempts:0}`;
* failure → `newAttempts = attempts + 1`; if `newAttempts >= MAX_FAILS` then
  `{activeAds:null, updated_at, status_updated:"soft_deleted",
  attempts:newAttempts, deleted_at:now}`, else
  `{activeAds:null, updated_at, status_updated:"blocked_ip"|"erro",
  attempts:newAttempts}` (the diagnostic label varies across variants);
* unexpected exception → `{updated_at, status_updated:"error",
  attempts:attempts+1}` (neither `activeAds` nor `deleted_at` is touched). -/
def applyOutcome (maxFails now : Nat) (row : OfferRow) : Outcome → OfferRow
  | .success c =>
    { row with
      activeAds := some c
      updatedAt := some now
      statusUpdated := some "success"
      attempts := 0 }
  | .failure confirmedBlocked =>
    let n := row.attempts + 1
    if maxFails ≤ n then
      { row with
        activeAds := none
        updatedAt := some now
        statusUpdated := some "soft_deleted"
        attempts := n
        deletedAt := some now }
    else
      { row with
        activeAds := none
        updatedAt := some now
        statusUpdated := some (if confirmedBlocked then "blocked_ip" else "erro")
        attempts := n }
  | .exception =>
    { row with
      updatedAt := some now
      statusUpdated := some "error"
      attempts := row.attempts + 1 }

/-- A sequence of lifecycle transitions applied to one item, each with its
wall-clock time. -/
def applySeq (maxFails : Nat) (row : OfferRow) (steps : List (Outcome × Nat)) :
    OfferRow :=
  steps.foldl (fun r s => applyOutcome maxFails s.2 r s.1) row

/-! ## Work partitioner: Fisher-Yates shuffle and contiguous chunking -/

/-- One in-place swap `[arr[i], arr[j]] = [arr[j], arr[i]]`, on lists.  The
shuffle loop only ever calls it with in-bounds indices. -/
def listSwap (l : List α) (i j : Nat) : List α :=
  if h : i < l.length ∧ j < l.length then
    (l.set i (l.get ⟨j, h.2⟩)).set j (l.get ⟨i, h.1⟩)
  else
    l

/-- The body of `shuffle`'s loop `for (let i = arr.length-1; i > 0; i--)`,
parameterized by the stream `r` of raw random draws; the source's
`Math.floor(Math.random()*(i+1))` — a uniform pick in `[0, i]` — is embedded
as `r i % (i+1)`. -/
def fyLoop (r : Nat → Nat) : Nat → List α → List α
  | 0, l => l
  | i + 1, l => fyLoop r i (listSwap l (i + 1) (r (i + 1) % (i + 2)))

/-- The `shuffle(a)` / `fisherYatesShuffle(array)` helper: copy the list and run the
swap loop from index `length-1` down to `1`. -/
def shuffle (r : Nat → Nat) (l : List α) : List α :=
  fyLoop r (l.length - 1) l

/-- JS `Array.prototype.slice(start, end)` for `0 ≤ start ≤ end` (the only
way the entrypoints call it). -/
def jsSlice (l : List α) (a b : Nat) : List α :=
  (l.drop a).take (b - a)

/-- The chunk size `Math.ceil(total/TOTAL_WORKERS)` for natural `total`. -/
def chunkSizeOf (total totalWorkers : Nat) : Nat :=
  (total + totalWorkers - 1) / totalWorkers

/-- Worker `i`'s slice of a (shuffled) backlog:
`shuffled.slice(WORKER_INDEX*chunkSize, Math.min((WORKER_INDEX+1)*chunkSize, total))`. -/
def chunkFor (l : List α) (workerIndex totalWorkers : Nat) : List α :=
  let total := l.length
  let c := chunkSizeOf total totalWorkers
  jsSlice l (workerIndex * c) (min ((workerIndex + 1) * c) total)

/-- The `scraper_nulls.mjs` entrypoint's backlog query:
`select("*").is("activeAds", null).is("deleted_at", null).order("id")`. -/
def selectNullOffers (rows : List OfferRow) : List OfferRow :=
  (rows.filter (fun r => r.activeAds == none && r.deletedAt == none)).mergeSort
    (fun a b => a.id ≤ b.id)

/-- The `scraper.mjs` entrypoint's backlog query: a bare `select("*")`,
with no filter on `deleted_at` or `status`. -/
def selectAllOffers (rows : List OfferRow) : List OfferRow :=
  rows

/-! ## Block detection and the confirmation protocol -/

/-- The per-attempt extraction result (`{found, count}` of
`attemptExtractFromPage`). -/
structure ExtractResult where
  found : Bool
  count : Nat
  deriving DecidableEq, Repr

/-- Everything one page visit observes: the extraction result, the
navigation response status (if any) and the page content (if read). -/
structure PageObs where
  found : Bool
  count : Nat
  statusCode : Option Nat
  html : Option String
  deriving DecidableEq, Repr

/-- ASCII lower-casing, the fragment of JS `toLowerCase` the block keywords
and result keywords exercise. -/
def asciiLower (c : Char) : Char :=
  if 'A' ≤ c ∧ c ≤ 'Z' then Char.ofNat (c.toNat + 32) else c

/-- Case-sensitive list-prefix test (by structural recursion). -/
def headMatches : List Char → List Char → Bool
  | [], _ => true
  | _ :: _, [] => false
  | k :: ks, c :: cs => k == c && headMatches ks cs

/-- Substring test: does `needle` occur contiguously inside `hay`? -/
def containsSub (hay needle : List Char) : Bool :=
  headMatches needle hay ||
    match hay with
    | [] => false
    | _ :: t => containsSub t needle

/-- The block-indicator phrases of `contentLooksBlocked`. -/
def blockKeywords : List String :=
  ["captcha", "verify", "temporarily blocked", "unusual activity",
   "confirm you're human", "log in to facebook", "sign in to continue",
   "please enable javascript", "blocked"]

/-- The block heuristic `contentLooksBlocked(html)`: `false` on a null page, otherwise a
case-insensitive substring check of each keyword against the content. -/
def contentLooksBlocked (html : Option String) : Bool :=
  match html with
  | none => false
  | some s =>
    blockKeywords.any (fun k => containsSub (s.data.map asciiLower) k.data)

/-- The status-code signal `statusCode && [401,403,407,429].includes(statusCode)`. -/
def statusBlocked (statusCode : Option Nat) : Bool :=
  match statusCode with
  | none => false
  | some s => s == 401 || s == 403 || s == 407 || s == 429

/-- The `initialBlocked` signal for the first attempt: the page content is only read
(and hence only consulted) when extraction found nothing. -/
def initialBlockedOf (o : PageObs) : Bool :=
  statusBlocked o.statusCode || (!o.found && contentLooksBlocked o.html)

/-- The `blocked2` signal for the confirmation attempt: the alternate page content is
always read. -/
def altBlockedOf (o : PageObs) : Bool :=
  statusBlocked o.statusCode || contentLooksBlocked o.html

/-- The confirmation step: when the first attempt looked blocked, a second
attempt on an independent context is made.  If it extracts a value, its
result supersedes the first and no block is recorded; otherwise the verdict
`confirmedBlock` is `blocked2 && initialBlocked`. -/
def confirmPhase (first : ExtractResult) (initialBlocked : Bool)
    (alt : PageObs) : ExtractResult × Bool :=
  if initialBlocked then
    if alt.found then (⟨true, alt.count⟩, false)
    else if altBlockedOf alt && initialBlocked then (first, true)
    else (first, false)
  else
    (first, false)

/-- The in-process retry loop: while the result is not found, each retry
replaces it with the next attempt's result; the loop stops at the first
found result. -/
def runRetries (res : ExtractResult) (retries : List ExtractResult) :
    ExtractResult :=
  retries.foldl (fun acc nxt => if acc.found then acc else nxt) res

/-- The final per-item verdict of one claimed processing pass. -/
inductive FinalVerdict where
  | success (count : Nat)
  | blockedVerdict
  | notFound
  deriving DecidableEq, Repr

/-- The control flow of `processOffers` after the first attempt: a confirmed
block returns immediately with the blocked outcome; otherwise the retry
loop runs and the result decides between success and not-found. -/
def processDecision (first : PageObs) (alt : PageObs)
    (retries : List ExtractResult) : FinalVerdict :=
  let r := confirmPhase ⟨first.found, first.count⟩ (initialBlockedOf first) alt
  if r.2 then .blockedVerdict
  else
    let fin := runRetries r.1 retries
    if fin.found then .success fin.count else .notFound

/-! ## The text-to-count parser `parseCountFromText` -/

/-- The character class JS `\s` matches (non-unicode mode), by code point:
space, tab, LF, CR, VT, FF, NBSP (U+00A0), U+1680, U+2000..U+200A, LS
(U+2028), PS (U+2029), NNBSP (U+202F), U+205F, U+3000 and BOM (U+FEFF). -/
def isJsWs (c : Char) : Bool :=
  c.toNat == 32 || c.toNat == 9 || c.toNat == 10 || c.toNat == 13 ||
  c.toNat == 11 || c.toNat == 12 || c.toNat == 0xA0 || c.toNat == 0x1680 ||
  (0x2000 ≤ c.toNat && c.toNat ≤ 0x200A) || c.toNat == 0x2028 ||
  c.toNat == 0x2029 || c.toNat == 0x202F || c.toNat == 0x205F ||
  c.toNat == 0x3000 || c.toNat == 0xFEFF

/-- ASCII decimal digit `0`..`9`, code points 48..57 (JS `\d`). -/
def isDigitCh (c : Char) : Bool :=
  48 ≤ c.toNat && c.toNat ≤ 57

/-- The class `[\d.,]` of the tilde pattern (`.` is 46, `,` is 44). -/
def tildeTokenCh (c : Char) : Bool :=
  isDigitCh c || (c.toNat == 46 || c.toNat == 44)

/-- The class `[\d\.,\s\u00A0\u202F]` of the keyword pattern. -/
def kwTokenCh (c : Char) : Bool :=
  isDigitCh c ||
    (c.toNat == 46 || c.toNat == 44 || isJsWs c ||
      c.toNat == 0xA0 || c.toNat == 0x202F)

/-- Case-insensitive (ASCII-folded) list-prefix test against a lowercase
keyword. -/
def headMatchesCI : List Char → List Char → Bool
  | [], _ => true
  | _ :: _, [] => false
  | k :: ks, c :: cs => k == asciiLower c && headMatchesCI ks cs

/-- Does `resultados` or `results` start at the head of `cs`
(case-insensitively), i.e. the `(?:resultados|results)` tail of the keyword
pattern under the `/i` flag? -/
def kwAt (cs : List Char) : Bool :=
  headMatchesCI "resultados".data cs || headMatchesCI "results".data cs

/-- The leftmost match of `/~\s*([\d.,]+)/`, returning the captured group:
at each candidate start the engine requires a `~`, skips the maximal
whitespace run, and captures the maximal nonempty `[\d.,]` run; on failure
it advances the start by one character. -/
def match1From : List Char → Option (List Char)
  | [] => none
  | c :: rest =>
    if c == '~' then
      let tok := (rest.dropWhile isJsWs).takeWhile tildeTokenCh
      if tok.isEmpty then match1From rest else some tok
    else
      match1From rest

/-- The leftmost match of `/([\d\.,\s  ]+)\s*(?:resultados|results)/i`,
returning the captured group.  Because `\s` is contained in the capture
class and the keywords start with a letter outside it, a match at start `p`
exists exactly when the maximal run of class characters at `p` is nonempty
and a keyword starts immediately after it, and the greedy capture is that
whole run. -/
def match2From : List Char → Option (List Char)
  | [] => none
  | c :: rest =>
    let run := (c :: rest).takeWhile kwTokenCh
    if !run.isEmpty && kwAt ((c :: rest).drop run.length) then some run
    else match2From rest

/-- The fallback `m = text.match(re1) || text.match(re2)`: the tilde pattern match, if
any, takes precedence over the keyword pattern's. -/
def selectedToken (cs : List Char) : Option (List Char) :=
  match match1From cs with
  | some t => some t
  | none => match2From cs

/-- The separator class of `m[1].replace(/[.,\s\u00A0\u202F]/g, "")`. -/
def isSeparatorCh (c : Char) : Bool :=
  c.toNat == 46 || c.toNat == 44 || isJsWs c ||
    c.toNat == 0xA0 || c.toNat == 0x202F

/-- The numeric value of a list of decimal digit characters. -/
def digitsVal (ds : List Char) : Nat :=
  ds.foldl (fun n c => n * 10 + (c.toNat - 48)) 0

/-- The behaviour of `parseInt(s, 10)` on the cleaned token: parse the maximal leading digit
run; an empty run is `NaN`, mapped to `null`. -/
def jsParseInt10 (cs : List Char) : Option Nat :=
  let ds := cs.takeWhile isDigitCh
  if ds.isEmpty then none else some (digitsVal ds)

/-- The parser `parseCountFromText(text)`: `null` for a falsy input, otherwise match
the tilde pattern then the keyword pattern, strip every separator character
from the captured token, and `parseInt` what remains. -/
def parseCountFromText (s : String) : Option Nat :=
  if s.isEmpty then none
  else
    match selectedToken s.data with
    | none => none
    | some tok => jsParseInt10 (tok.filter (fun c => !isSeparatorCh c))

/-- The claim's reading of the null condition, from its words: "it returns
null exactly when no token containing at least one digit matches" — i.e.
neither pattern matches the input with a captured token containing a
digit. -/
def digitTokenMatches (s : String) : Bool :=
  (match match1From s.data with
   | some t => t.any isDigitCh
   | none => false) ||
  (match match2From s.data with
   | some t => t.any isDigitCh
   | none => false)

/-! ## Concrete rows used by witnesses and counterexamples -/

/-- A freshly inserted, never-claimed row (`scrape_status` unset). -/
def pendingRow : OfferRow :=
  { id := 1, adLibraryUrl := some "https://example.org/ads", activeAds := none,
    updatedAt := none, statusUpdated := none, attempts := 0, deletedAt := none,
    scrapeStatus := none, claimedAt := none, claimedBy := none,
    claimExpires := none }

/-- A row claimed by worker `"worker-a"` whose lease expired at time `100`
without ever being released. -/
def expiredLeaseRow : OfferRow :=
  { id := 2, adLibraryUrl := some "https://example.org/ads2", activeAds := none,
    updatedAt := none, statusUpdated := none, attempts := 0, deletedAt := none,
    scrapeStatus := some "in_progress", claimedAt := some 0,
    claimedBy := some "worker-a", claimExpires := some 100 }

/-- A row with two prior failures and `deleted_at` still null. -/
def twoFailsRow : OfferRow :=
  { id := 3, adLibraryUrl := some "https://example.org/ads3", activeAds := none,
    updatedAt := none, statusUpdated := some "erro", attempts := 2,
    deletedAt := none, scrapeStatus := none, claimedAt := none,
    claimedBy := none, claimExpires := none }

/-- A soft-deleted row (`deleted_at` set at time `50`). -/
def softDeletedRow : OfferRow :=
  { id := 4, adLibraryUrl := some "https://example.org/ads4",
    activeAds := none, updatedAt := some 50,
    statusUpdated := some "soft_deleted", attempts := 3,
    deletedAt := some 50, scrapeStatus := none, claimedAt := none,
    claimedBy := none, claimExpires := none }

/-! ## Helper lemmas -/

/-- A failed conditional claim leaves the row untouched. -/
theorem tryClaimUpdate_not_claimable (row : OfferRow) (w : String) (now : Nat)
    (h : ¬(row.scrapeStatus = none ∨ row.scrapeStatus = some "pending")) :
    tryClaimUpdate row w now = (false, row) := by
  simp [tryClaimUpdate, h]

/-- Once a row is `in_progress`, every further serialized claim attempt
fails and the accumulated state is unchanged. -/
theorem foldClaims_in_progress (l : List (String × Nat)) :
    ∀ (k : Nat) (row : OfferRow), row.scrapeStatus = some "in_progress" →
      l.foldl claimStep (k, row) = (k, row) := by
  induction l with
  | nil => intro k row _; rfl
  | cons a t ih =>
    intro k row h
    have hfail : tryClaimUpdate row a.1 a.2 = (false, row) := by
      apply tryClaimUpdate_not_claimable
      rw [h]
      intro hc
      rcases hc with hc | hc
      · exact Option.noConfusion hc
      · exact absurd (Option.some.inj hc) (by decide)
    simp only [List.foldl, claimStep, hfail]
    exact ih k row h

/-- At most one more claim can be granted over any serialized suffix. -/
theorem foldClaims_le (l : List (String × Nat)) :
    ∀ (k : Nat) (row : OfferRow), (l.foldl claimStep (k, row)).1 ≤ k + 1 := by
  induction l with
  | nil => intro k row; exact Nat.le_succ k
  | cons a t ih =>
    intro k row
    by_cases h : row.scrapeStatus = none ∨ row.scrapeStatus = some "pending"
    · have hstep : tryClaimUpdate row a.1 a.2 =
          (true,
            { row with
              scrapeStatus := some "in_progress"
              claimedAt := some a.2
              claimedBy := some a.1
              claimExpires := some (a.2 + claimTtlMs) }) := by
        simp [tryClaimUpdate, h]
      simp only [List.foldl, claimStep, hstep]
      rw [if_pos trivial]
      rw [foldClaims_in_progress t (k + 1)
        { row with
          scrapeStatus := some "in_progress"
          claimedAt := some a.2
          claimedBy := some a.1
          claimExpires := some (a.2 + claimTtlMs) } rfl]
    · have hfail := tryClaimUpdate_not_claimable row a.1 a.2 h
      simp only [List.foldl, claimStep, hfail]
      exact ih k row

/-! ## Claim theorems -/

/-- C1: among any serialized set of concurrent `tryClaim` attempts against
one item, at most one returns `true`; the claim itself is the single
conditional update that succeeds exactly when `scrape_status` is `pending`
or unset, atomically setting `scrape_status='in_progress'`,
`claimed_by=workerId` and `claim_expires=now+ttl` on success, and its
boolean is whether a row was affected. -/
theorem tryClaim_mutual_exclusion (row : OfferRow)
    (attempts : List (String × Nat)) (w : String) (now : Nat) :
    (runClaims row attempts).1 ≤ 1 ∧
    ((tryClaimUpdate row w now).1 = true ↔
      (row.scrapeStatus = none ∨ row.scrapeStatus = some "pending")) ∧
    ((tryClaimUpdate row w now).1 = true →
      (tryClaimUpdate row w now).2 =
        { row with
          scrapeStatus := some "in_progress"
          claimedAt := some now
          claimedBy := some w
          claimExpires := some (now + claimTtlMs) }) := by
  refine ⟨foldClaims_le attempts 0 row, ?_, ?_⟩
  · by_cases h : row.scrapeStatus = none ∨ row.scrapeStatus = some "pending"
    · simp [tryClaimUpdate, h]
    · simp [tryClaimUpdate, h]
  · intro htrue
    by_cases h : row.scrapeStatus = none ∨ row.scrapeStatus = some "pending"
    · simp [tryClaimUpdate, h]
    · rw [tryClaimUpdate_not_claimable row w now h] at htrue
      simp at htrue

/-- Witness for C1 at a concrete pending row and three competing workers. -/
theorem tryClaim_mutual_exclusion_witness :
    (runClaims pendingRow
      [("worker-a", 0), ("worker-b", 1), ("worker-c", 2)]).1 ≤ 1 ∧
    (tryClaimUpdate pendingRow "worker-a" 5).2 =
      { pendingRow with
        scrapeStatus := some "in_progress"
        claimedAt := some 5
        claimedBy := some "worker-a"
        claimExpires := some (5 + claimTtlMs) } :=
  ⟨(tryClaim_mutual_exclusion pendingRow
      [("worker-a", 0), ("worker-b", 1), ("worker-c", 2)] "worker-a" 5).1,
   (tryClaim_mutual_exclusion pendingRow
      [("worker-a", 0), ("worker-b", 1), ("worker-c", 2)] "worker-a" 5).2.2
     (by decide)⟩

/-- C5 counterexample: a row whose lease expired at time `100` but that was
never released is NOT claimable by a different worker at time `200` — the
conditional update consults only `scrape_status`, which is still
`in_progress`, so `tryClaim` returns `false`, contradicting the claim that
an expired lease makes the item claimable again. -/
theorem expired_lease_not_claimable_counterexample :
    (expiredLeaseRow.claimExpires = some 100 ∧
      expiredLeaseRow.claimedBy = some "worker-a" ∧ (100 : Nat) < 200) ∧
    (tryClaimUpdate expiredLeaseRow "worker-b" 200).1 = false := by
  decide

/-- C5 (amended): `tryClaim` ignores `claim_expires` entirely: it succeeds
exactly when `scrape_status` is `pending` or unset, so an item left
`in_progress` past its lease expiry is not claimable by any worker. -/
theorem tryClaim_ignores_lease_expiry (row : OfferRow) (w : String)
    (now : Nat) :
    ((tryClaimUpdate row w now).1 = true ↔
      (row.scrapeStatus = none ∨ row.scrapeStatus = some "pending")) ∧
    (row.scrapeStatus = some "in_progress" →
      (tryClaimUpdate row w now).1 = false) := by
  constructor
  · by_cases h : row.scrapeStatus = none ∨ row.scrapeStatus = some "pending"
    · simp [tryClaimUpdate, h]
    · simp [tryClaimUpdate, h]
  · intro hip
    have h : ¬(row.scrapeStatus = none ∨ row.scrapeStatus = some "pending") := by
      rw [hip]
      rintro (hc | hc)
      · exact Option.noConfusion hc
      · exact absurd (Option.some.inj hc) (by decide)
    rw [tryClaimUpdate_not_claimable row w now h]

/-- Witness for the amended C5 at the concrete expired-lease row. -/
theorem tryClaim_ignores_lease_expiry_witness :
    (tryClaimUpdate expiredLeaseRow "worker-b" 200).1 = false :=
  (tryClaim_ignores_lease_expiry expiredLeaseRow "worker-b" 200).2 rfl

/-- C9: `tryClaimOffer` maps every datastore error result and every thrown
exception to `false` instead of propagating, and claim contention (zero
rows affected) yields the same `false`, so the caller cannot distinguish
the two from the returned boolean. -/
theorem tryClaimOffer_total_on_failures (m e : String)
    (d : Option (List Nat)) :
    tryClaimOffer (.thrown m) = false ∧
    tryClaimOffer (.resolved d (some e)) = false ∧
    tryClaimOffer (.resolved (some []) none) = false := by
  refine ⟨rfl, ?_, rfl⟩
  cases d <;> rfl

/-- C2: with prior `attempts = maxFails - 1`, any failing final outcome
(blocked or not) soft-deletes the item — `status_updated='soft_deleted'`,
`attempts=maxFails`, `deleted_at=now`, `activeAds=null`; with prior
`attempts < maxFails - 1` a failing outcome merely increments `attempts`
and leaves `deleted_at` unchanged (hence null). -/
theorem failure_threshold_soft_delete (mf now : Nat) (row : OfferRow)
    (cb : Bool) (hmf : 1 ≤ mf) :
    (row.attempts = mf - 1 →
      applyOutcome mf now row (.failure cb) =
        { row with
          activeAds := none
          updatedAt := some now
          statusUpdated := some "soft_deleted"
          attempts := mf
          deletedAt := some now }) ∧
    (row.attempts < mf - 1 →
      (applyOutcome mf now row (.failure cb)).attempts = row.attempts + 1 ∧
      (applyOutcome mf now row (.failure cb)).deletedAt = row.deletedAt) := by
  constructor
  · intro h
    have hle : mf ≤ row.attempts + 1 := by omega
    have heq : row.attempts + 1 = mf := by omega
    simp only [applyOutcome]
    rw [if_pos hle, heq]
  · intro h
    have hlt : ¬mf ≤ row.attempts + 1 := by omega
    simp only [applyOutcome]
    rw [if_neg hlt]
    exact ⟨rfl, rfl⟩

/-- Witness for C2 with `maxFails=3`: a row with two prior failures is
soft-deleted by one more failure, and a fresh row just increments. -/
theorem failure_threshold_soft_delete_witness :
    (applyOutcome 3 77 twoFailsRow (.failure true) =
      { twoFailsRow with
        activeAds := none
        updatedAt := some 77
        statusUpdated := some "soft_deleted"
        attempts := 3
        deletedAt := some 77 }) ∧
    ((applyOutcome 3 77 pendingRow (.failure false)).attempts = 1 ∧
      (applyOutcome 3 77 pendingRow (.failure false)).deletedAt =
        pendingRow.deletedAt) :=
  ⟨(failure_threshold_soft_delete 3 77 twoFailsRow true (by decide)).1 rfl,
   (failure_threshold_soft_delete 3 77 pendingRow false (by decide)).2
     (by decide)⟩

/-- C3: at every point of every sequence of lifecycle transitions — the
exception exit path included — a success step sets `attempts` to exactly
`0` and every non-success step sets it to exactly the previous value plus
one; hence the counter never decreases except to `0`, is zeroed only by a
`found=true` transition, and is increased by every terminal non-success
outcome. -/
theorem attempts_monotonicity (mf : Nat) (row : OfferRow)
    (pre : List (Outcome × Nat)) (o : Outcome) (t : Nat) :
    ((∃ c, o = Outcome.success c) →
      (applySeq mf row (pre ++ [(o, t)])).attempts = 0) ∧
    ((∀ c, o ≠ Outcome.success c) →
      (applySeq mf row (pre ++ [(o, t)])).attempts =
        (applySeq mf row pre).attempts + 1) := by
  have hsplit : applySeq mf row (pre ++ [(o, t)]) =
      applyOutcome mf t (applySeq mf row pre) o := by
    simp [applySeq, List.foldl_append]
  constructor
  · rintro ⟨c, rfl⟩
    rw [hsplit]
    rfl
  · intro h
    rw [hsplit]
    cases o with
    | success c => exact absurd rfl (h c)
    | failure cb =>
      simp only [applyOutcome]
      split <;> rfl
    | exception => rfl

/-- Witness for C3: a success after a failure resets the counter to `0`,
and an exception after a success bumps it by one. -/
theorem attempts_monotonicity_witness :
    (applySeq 3 pendingRow [(.failure false, 0), (.success 7, 1)]).attempts
        = 0 ∧
    (applySeq 3 pendingRow [(.success 7, 1), (.exception, 2)]).attempts =
      (applySeq 3 pendingRow [(.success 7, 1)]).attempts + 1 :=
  ⟨(attempts_monotonicity 3 pendingRow [(.failure false, 0)]
      (.success 7) 1).1 ⟨7, rfl⟩,
   (attempts_monotonicity 3 pendingRow [(.success 7, 1)] .exception 2).2
     (fun _ h => Outcome.noConfusion h)⟩

/-- C8: applying the `found=true` transition with the same value twice in a
row yields the same persisted row as applying it once, and that row has
`status_updated='success'`, `attempts=0` and `activeAds` equal to the
extracted value. -/
theorem success_transition_idempotent (mf t1 t2 : Nat) (row : OfferRow)
    (c : Nat) :
    applyOutcome mf t2 (applyOutcome mf t1 row (.success c)) (.success c) =
      applyOutcome mf t2 row (.success c) ∧
    (applyOutcome mf t2 row (.success c)).statusUpdated = some "success" ∧
    (applyOutcome mf t2 row (.success c)).attempts = 0 ∧
    (applyOutcome mf t2 row (.success c)).activeAds = some c :=
  ⟨rfl, rfl, rfl, rfl⟩

/-- Replacing position `j` by `a` and promoting the old `j`-th element to
the head permutes a cons: the heart of the swap argument. -/
theorem cons_set_perm :
    ∀ (t : List α) (j : Nat) (a : α) (hj : j < t.length),
      (t.get ⟨j, hj⟩ :: t.set j a).Perm (a :: t) := by
  intro t
  induction t with
  | nil =>
    intro j a hj
    exact absurd hj (by simp)
  | cons b t2 ih =>
    intro j a hj
    cases j with
    | zero => exact List.Perm.swap a b t2
    | succ n =>
      have hn : n < t2.length := Nat.lt_of_succ_lt_succ hj
      calc (t2.get ⟨n, hn⟩ :: b :: t2.set n a).Perm
            (b :: t2.get ⟨n, hn⟩ :: t2.set n a) := List.Perm.swap _ _ _
        _ |>.Perm (b :: a :: t2) := (ih n a hn).cons b
        _ |>.Perm (a :: b :: t2) := List.Perm.swap _ _ _

/-- A swap of two list positions is a permutation. -/
theorem listSwap_perm : ∀ (l : List α) (i j : Nat), (listSwap l i j).Perm l := by
  intro l
  induction l with
  | nil =>
    intro i j
    unfold listSwap
    split
    · rename_i hb
      exact absurd hb.1 (by simp)
    · exact List.Perm.refl _
  | cons a t ih =>
    intro i j
    unfold listSwap
    split
    · rename_i hb
      obtain ⟨hi, hj⟩ := hb
      rcases i with _ | i <;> rcases j with _ | j
      · exact List.Perm.refl _
      · exact cons_set_perm t j a (Nat.lt_of_succ_lt_succ hj)
      · exact cons_set_perm t i a (Nat.lt_of_succ_lt_succ hi)
      · have hi2 : i < t.length := Nat.lt_of_succ_lt_succ hi
        have hj2 : j < t.length := Nat.lt_of_succ_lt_succ hj
        have hsw : listSwap t i j =
            (t.set i (t.get ⟨j, hj2⟩)).set j (t.get ⟨i, hi2⟩) := by
          unfold listSwap
          rw [dif_pos ⟨hi2, hj2⟩]
        have h3 := (ih i j).cons a
        rw [hsw] at h3
        exact h3
    · exact List.Perm.refl _

/-- Every run of the Fisher-Yates loop is a permutation of its input. -/
theorem fyLoop_perm (r : Nat → Nat) (k : Nat) (l : List α) :
    (fyLoop r k l).Perm l := by
  induction k generalizing l with
  | zero => exact List.Perm.refl l
  | succ i ih =>
    exact (ih _).trans (listSwap_perm l (i + 1) (r (i + 1) % (i + 2)))

/-- The shuffle permutes its input: no item dropped, no item duplicated. -/
theorem shuffle_perm (r : Nat → Nat) (l : List α) : (shuffle r l).Perm l :=
  fyLoop_perm r (l.length - 1) l

/-- Each worker's slice is the plain `take`-of-`drop` chunk of size
`chunkSize`. -/
theorem chunkFor_eq (l : List α) (i W : Nat) :
    chunkFor l i W =
      (l.drop (i * chunkSizeOf l.length W)).take (chunkSizeOf l.length W) := by
  simp only [chunkFor, jsSlice]
  set c := chunkSizeOf l.length W with hc
  have hmul : (i + 1) * c = i * c + c := by ring
  rcases le_or_lt ((i + 1) * c) l.length with h | h
  · have hmin : min ((i + 1) * c) l.length = (i + 1) * c := min_eq_left h
    rw [hmin]
    have hdiff : (i + 1) * c - i * c = c := by omega
    rw [hdiff]
  · have hmin : min ((i + 1) * c) l.length = l.length := min_eq_right h.le
    rw [hmin]
    rw [List.take_of_length_le (by rw [List.length_drop])]
    rw [List.take_of_length_le (by rw [List.length_drop]; omega)]

/-- Concatenating the first `k` chunks of size `c` recovers the `k*c`
prefix. -/
theorem chunks_flatten_take (c : Nat) :
    ∀ (k : Nat) (l : List α),
      ((List.range k).map (fun i => (l.drop (i * c)).take c)).flatten =
        l.take (k * c) := by
  intro k
  induction k with
  | zero => intro l; simp
  | succ n ih =>
    intro l
    rw [List.range_succ, List.map_append, List.flatten_append, ih]
    simp only [List.map_cons, List.map_nil, List.flatten_cons,
      List.flatten_nil, List.append_nil]
    rw [show (n + 1) * c = n * c + c by ring, List.take_add]

/-- The backlog length never exceeds `totalWorkers * chunkSize`. -/
theorem length_le_chunks (N W : Nat) (hW : 1 ≤ W) :
    N ≤ W * chunkSizeOf N W := by
  unfold chunkSizeOf
  have hdm := Nat.div_add_mod (N + W - 1) W
  have hmod : (N + W - 1) % W < W := Nat.mod_lt _ (by omega)
  omega

/-- C4: for any backlog snapshot and any `totalWorkers = W ≥ 1`, the
concatenation of all `W` workers' chunks of the shuffled backlog is exactly
the shuffled backlog, and the shuffled backlog is a permutation of the
snapshot — hence every item of the snapshot lands in exactly one worker's
chunk, none dropped, none duplicated; and for a snapshot of `10` items and
`W = 4` the chunk sizes are `3, 3, 3, 1`. -/
theorem partition_complete (l : List α) (r : Nat → Nat) (W : Nat)
    (hW : 1 ≤ W) :
    ((List.range W).map (fun i => chunkFor (shuffle r l) i W)).flatten =
      shuffle r l ∧
    (shuffle r l).Perm l ∧
    (l.length = 10 → W = 4 →
      (List.range W).map (fun i => (chunkFor (shuffle r l) i W).length) =
        [3, 3, 3, 1]) := by
  have hperm := shuffle_perm r l
  have hlen : (shuffle r l).length = l.length := hperm.length_eq
  set m := shuffle r l with hm
  refine ⟨?_, hperm, ?_⟩
  · have hcongr :
        (List.range W).map (fun i => chunkFor m i W) =
          (List.range W).map
            (fun i => (m.drop (i * chunkSizeOf m.length W)).take
              (chunkSizeOf m.length W)) :=
      List.map_congr_left (fun i _ => chunkFor_eq m i W)
    rw [hcongr, chunks_flatten_take]
    exact List.take_of_length_le (length_le_chunks m.length W hW)
  · intro hN hW4
    subst hW4
    have hml : m.length = 10 := by rw [hlen, hN]
    have hcs : chunkSizeOf m.length 4 = 3 := by rw [hml]; rfl
    have hrange : List.range 4 = [0, 1, 2, 3] := rfl
    rw [hrange]
    simp only [List.map_cons, List.map_nil]
    rw [chunkFor_eq m 0 4, chunkFor_eq m 1 4, chunkFor_eq m 2 4,
      chunkFor_eq m 3 4]
    simp only [List.length_take, List.length_drop, hcs, hml]
    rfl

/-- Witness for C4 at a concrete ten-item backlog, four workers and a
concrete random stream. -/
theorem partition_complete_witness :
    ((List.range 4).map
        (fun i =>
          chunkFor (shuffle (fun n => n * 7 + 3)
            [0, 1, 2, 3, 4, 5, 6, 7, 8, 9]) i 4)).flatten =
      shuffle (fun n => n * 7 + 3) [0, 1, 2, 3, 4, 5, 6, 7, 8, 9] ∧
    (shuffle (fun n => n * 7 + 3)
        [0, 1, 2, 3, 4, 5, 6, 7, 8, 9]).Perm
      [0, 1, 2, 3, 4, 5, 6, 7, 8, 9] ∧
    (List.range 4).map
        (fun i =>
          (chunkFor (shuffle (fun n => n * 7 + 3)
            [0, 1, 2, 3, 4, 5, 6, 7, 8, 9]) i 4).length) =
      [3, 3, 3, 1] :=
  ⟨(partition_complete [0, 1, 2, 3, 4, 5, 6, 7, 8, 9]
      (fun n => n * 7 + 3) 4 (by decide)).1,
   (partition_complete [0, 1, 2, 3, 4, 5, 6, 7, 8, 9]
      (fun n => n * 7 + 3) 4 (by decide)).2.1,
   (partition_complete [0, 1, 2, 3, 4, 5, 6, 7, 8, 9]
      (fun n => n * 7 + 3) 4 (by decide)).2.2 rfl rfl⟩

/-- C7 counterexample: the `scraper.mjs` entrypoint selects the whole table
with no `deleted_at` filter, so a soft-deleted row is included in the
backlog the partitioner divides among workers: it lands in worker `0`'s
chunk, contradicting the claim that no item with non-null `deletedAt` is
ever partitioned. -/
theorem soft_deleted_partitioned_counterexample :
    softDeletedRow.deletedAt ≠ none ∧
    softDeletedRow ∈
      chunkFor (shuffle (fun _ => 0) (selectAllOffers [softDeletedRow])) 0 4 := by
  decide

/-- C7 (amended): in the `scraper_nulls.mjs` entrypoint — whose query does
filter `deleted_at IS NULL` — no worker's chunk ever contains a row with
`deletedAt` set. -/
theorem null_select_excludes_soft_deleted (rows : List OfferRow)
    (rand : Nat → Nat) (i W : Nat) (r : OfferRow)
    (hmem : r ∈ chunkFor (shuffle rand (selectNullOffers rows)) i W) :
    r.deletedAt = none := by
  have h1 : r ∈ shuffle rand (selectNullOffers rows) := by
    rw [chunkFor_eq] at hmem
    exact List.mem_of_mem_drop (List.mem_of_mem_take hmem)
  have h2 : r ∈ selectNullOffers rows :=
    (shuffle_perm rand (selectNullOffers rows)).mem_iff.mp h1
  have h3 : r ∈ rows.filter
      (fun q => q.activeAds == none && q.deletedAt == none) := by
    unfold selectNullOffers at h2
    exact (List.mergeSort_perm _ _).mem_iff.mp h2
  have h4 := (List.mem_filter.mp h3).2
  rw [Bool.and_eq_true] at h4
  exact eq_of_beq h4.2

/-- Witness for the amended C7: a live row fed through select, shuffle and
chunking indeed has `deletedAt = none`. -/
theorem null_select_excludes_soft_deleted_witness :
    pendingRow.deletedAt = none := by
  have hsel : selectNullOffers [pendingRow, softDeletedRow] = [pendingRow] := by
    unfold selectNullOffers
    rw [show List.filter
        (fun q => q.activeAds == none && q.deletedAt == none)
        [pendingRow, softDeletedRow] = [pendingRow] from by decide]
    exact List.mergeSort_singleton pendingRow
  exact null_select_excludes_soft_deleted [pendingRow, softDeletedRow]
    (fun _ => 0) 0 4 pendingRow (by rw [hsel]; decide)

/-- The retry loop stops at a found result: retries never overwrite it. -/
theorem runRetries_found (res : ExtractResult) (retries : List ExtractResult)
    (h : res.found = true) : runRetries res retries = res := by
  induction retries with
  | nil => rfl
  | cons a t ih =>
    show (a :: t).foldl (fun acc nxt => if acc.found then acc else nxt) res = res
    rw [List.foldl_cons, if_pos h]
    exact ih

/-- C6: when the first attempt fires a block signal and finds no value, the
confirmation attempt decides the verdict: `confirmedBlock` is `true` exactly
when the second attempt also shows a block signal and also finds no value;
and if the second attempt finds a value, its result supersedes the first and
the final outcome of the pass is `success` with that value — never
`blocked`. -/
theorem block_confirmation (first alt : PageObs)
    (retries : List ExtractResult) (_hnf : first.found = false)
    (hblk : initialBlockedOf first = true) :
    ((confirmPhase ⟨first.found, first.count⟩ (initialBlockedOf first)
        alt).2 = true ↔
      (altBlockedOf alt = true ∧ alt.found = false)) ∧
    (alt.found = true →
      processDecision first alt retries = .success alt.count) := by
  constructor
  · rw [confirmPhase, if_pos hblk]
    cases halt : alt.found with
    | true => simp
    | false =>
      cases hab : altBlockedOf alt with
      | true => simp [hblk]
      | false => simp
  · intro haf
    have hcp : confirmPhase ⟨first.found, first.count⟩
        (initialBlockedOf first) alt = (⟨true, alt.count⟩, false) := by
      rw [confirmPhase, if_pos hblk, if_pos haf]
    simp only [processDecision, hcp]
    rw [runRetries_found ⟨true, alt.count⟩ retries rfl]
    simp

/-- Witness for C6: a 403 first attempt with no value, whose confirmation
attempt extracts `42`, ends in `success 42`. -/
theorem block_confirmation_witness :
    processDecision
      { found := false, count := 0, statusCode := some 403, html := none }
      { found := true, count := 42, statusCode := some 403,
        html := some "all good" }
      [] = .success 42 :=
  (block_confirmation
    { found := false, count := 0, statusCode := some 403, html := none }
    { found := true, count := 42, statusCode := some 403,
      html := some "all good" }
    [] rfl (by decide)).2 rfl

/-- A decimal digit is not a separator character. -/
theorem digit_not_separator (c : Char) (hd : isDigitCh c = true) :
    isSeparatorCh c = false := by
  have h1 : 48 ≤ c.toNat ∧ c.toNat ≤ 57 := by
    unfold isDigitCh at hd
    rw [Bool.and_eq_true, decide_eq_true_eq, decide_eq_true_eq] at hd
    exact hd
  cases hsep : isSeparatorCh c with
  | false => rfl
  | true =>
    exfalso
    unfold isSeparatorCh isJsWs at hsep
    simp only [Bool.or_eq_true, beq_iff_eq, Bool.and_eq_true,
      decide_eq_true_eq] at hsep
    omega

/-- On tilde-pattern token characters, "not a separator" and "a digit"
coincide. -/
theorem tilde_not_sep_eq_digit (c : Char) (h : tildeTokenCh c = true) :
    (!isSeparatorCh c) = isDigitCh c := by
  by_cases hd : isDigitCh c = true
  · rw [hd, digit_not_separator c hd]
    rfl
  · have hd0 : isDigitCh c = false := eq_false_of_ne_true hd
    rw [hd0]
    unfold tildeTokenCh at h
    rw [hd0, Bool.false_or] at h
    unfold isSeparatorCh
    simp only [Bool.or_eq_true] at h
    rcases h with h | h
    · simp [h]
    · simp [h]

/-- On keyword-pattern token characters, "not a separator" and "a digit"
coincide. -/
theorem kw_not_sep_eq_digit (c : Char) (h : kwTokenCh c = true) :
    (!isSeparatorCh c) = isDigitCh c := by
  by_cases hd : isDigitCh c = true
  · rw [hd, digit_not_separator c hd]
    rfl
  · have hd0 : isDigitCh c = false := eq_false_of_ne_true hd
    rw [hd0]
    unfold kwTokenCh at h
    rw [hd0, Bool.false_or] at h
    unfold isSeparatorCh
    rw [h]
    rfl

/-- Every character of a tilde-pattern capture is in the `[\d.,]` class. -/
theorem match1From_class :
    ∀ (cs tok : List Char), match1From cs = some tok →
      ∀ c ∈ tok, tildeTokenCh c = true := by
  intro cs
  induction cs with
  | nil =>
    intro tok h
    exact absurd h (by simp [match1From])
  | cons a rest ih =>
    intro tok h c hc
    simp only [match1From] at h
    by_cases ha : (a == '~') = true
    · rw [if_pos ha] at h
      by_cases he : ((rest.dropWhile isJsWs).takeWhile tildeTokenCh).isEmpty = true
      · rw [if_pos he] at h
        exact ih tok h c hc
      · rw [if_neg he] at h
        injection h with h2
        subst h2
        exact List.mem_takeWhile_imp hc
    · rw [if_neg ha] at h
      exact ih tok h c hc

/-- Every character of a keyword-pattern capture is in the
`[\d\.,\s  ]` class. -/
theorem match2From_class :
    ∀ (cs tok : List Char), match2From cs = some tok →
      ∀ c ∈ tok, kwTokenCh c = true := by
  intro cs
  induction cs with
  | nil =>
    intro tok h
    exact absurd h (by simp [match2From])
  | cons a rest ih =>
    intro tok h c hc
    simp only [match2From] at h
    by_cases hcnd : (!((a :: rest).takeWhile kwTokenCh).isEmpty &&
        kwAt ((a :: rest).drop ((a :: rest).takeWhile kwTokenCh).length)) = true
    · rw [if_pos hcnd] at h
      injection h with h2
      subst h2
      exact List.mem_takeWhile_imp hc
    · rw [if_neg hcnd] at h
      exact ih tok h c hc

/-- Neither pattern matches the empty input. -/
theorem selectedToken_nil : selectedToken ([] : List Char) = none := rfl

/-- C10 (amended): the parser strips every separator from the single token
selected by its matching procedure — the tilde pattern first, the keyword
pattern only when the tilde pattern does not match — and returns the
integer formed by the token's concatenated digits (so `"7,5 results"`
parses to `75`); it returns `null` exactly when the selected token contains
no digit (or no pattern matches at all). -/
theorem parseCount_selected_token (s : String) (tok : List Char)
    (hsel : selectedToken s.data = some tok) :
    (parseCountFromText s = none ↔ tok.filter isDigitCh = []) ∧
    (tok.filter isDigitCh ≠ [] →
      parseCountFromText s = some (digitsVal (tok.filter isDigitCh))) ∧
    parseCountFromText "7,5 results" = some 75 := by
  have hcls : ∀ c ∈ tok, (!isSeparatorCh c) = isDigitCh c := by
    have hsel2 := hsel
    unfold selectedToken at hsel2
    cases hm1 : match1From s.data with
    | some t =>
      rw [hm1] at hsel2
      injection hsel2 with h2
      rw [h2] at hm1
      intro c hc
      exact tilde_not_sep_eq_digit c (match1From_class s.data tok hm1 c hc)
    | none =>
      rw [hm1] at hsel2
      intro c hc
      exact kw_not_sep_eq_digit c (match2From_class s.data tok hsel2 c hc)
  have hne : s.isEmpty = false := by
    cases hemp : s.isEmpty with
    | false => rfl
    | true =>
      exfalso
      have hs0 : s = "" := (String.isEmpty_iff s).mp hemp
      rw [hs0] at hsel
      exact Option.noConfusion (selectedToken_nil ▸ hsel)
  have hall : (tok.filter isDigitCh).takeWhile isDigitCh =
      tok.filter isDigitCh :=
    List.takeWhile_eq_self_iff.mpr (fun x hx => (List.mem_filter.mp hx).2)
  have hparse : parseCountFromText s =
      jsParseInt10 (tok.filter isDigitCh) := by
    unfold parseCountFromText
    rw [hne]
    rw [if_neg (by simp)]
    rw [hsel]
    show jsParseInt10 (tok.filter (fun c => !isSeparatorCh c)) =
      jsParseInt10 (tok.filter isDigitCh)
    rw [List.filter_congr hcls]
  refine ⟨?_, ?_, rfl⟩
  · rw [hparse]
    unfold jsParseInt10
    rw [hall]
    constructor
    · intro h0
      by_cases hemp2 : (tok.filter isDigitCh).isEmpty = true
      · exact List.isEmpty_iff.mp hemp2
      · rw [if_neg hemp2] at h0
        exact Option.noConfusion h0
    · intro h0
      rw [if_pos (by rw [h0]; rfl)]
  · intro hne2
    rw [hparse]
    unfold jsParseInt10
    rw [hall]
    rw [if_neg (fun hemp2 => hne2 (List.isEmpty_iff.mp hemp2))]

/-- Witness for the amended C10: on `"7,5 results"` the keyword pattern
captures `"7,5 "` and the parser returns `75`, not a rounded count. -/
theorem parseCount_selected_token_witness :
    parseCountFromText "7,5 results" = some 75 :=
  (parseCount_selected_token "7,5 results" [Char.ofNat 55, Char.ofNat 44,
    Char.ofNat 53, Char.ofNat 32] (by decide)).2.1 (by decide)

/-- C10 counterexample: on `"~, 5 results"` the tilde pattern matches first
with the digit-less token `","`, so the parser returns `null`, even though
the keyword pattern matches the same input with a token containing the
digit `5` — refuting "returns null exactly when no token containing at
least one digit matches". -/
theorem parseCount_digit_token_counterexample :
    parseCountFromText "~, 5 results" = none ∧
    digitTokenMatches "~, 5 results" = true := by
  decide
